import Mathlib

/-
Verification of the dt differential frame-time profiler (dt.h, final variant).

The C++ header is shallowly embedded below.  Conventions:
  * float_type (double) is modelled as ℚ; std::sqrt has no exact rational
    counterpart, so every function that needs it takes an uninterpreted
    parameter sq : ℚ → ℚ standing for the square root.  No theorem below
    depends on the value of sq.
  * C++ int fields (recorded_slices, warmup_runs_left, target_sample_count,
    warmup_runs, significant digit counts) are modelled as ℤ; the size_t
    index target_zone as ℕ.
  * std::vector is a List; the out-of-bounds write of record_slice on an
    empty zone vector (undefined behaviour in C++) is modelled as a no-op
    on the list while recorded_slices is still incremented, exactly as the
    two statements of record_slice read.
  * the chrono time point t0 and the no-argument slice() overload belong to
    the external wall-clock collaborator and are not modelled; the done_cb
    function pointer is modelled as an opaque Option ℕ handle, and the
    printf side effects of evaluate have no model state.
  * (int)std::log10(x)+1 for x ≥ 1 is modelled exactly as the decimal digit
    count of trunc x.
-/

namespace dt

attribute [local semireducible] Rat.add Rat.mul Rat.sub Rat.inv

inductive Status where
  | Ready
  | Starting
  | Measuring
deriving DecidableEq, Inhabited

inductive ReportOutMode where
  | JustEval
  | ConsoleOut
deriving DecidableEq, Inhabited

inductive ReportTimeMode where
  | Ms
  | Fps
deriving DecidableEq, Inhabited

structure Zone where
  name : String
  frame_times : List ℚ
deriving DecidableEq, Inhabited

structure ZoneResult where
  name : String
  sorted_times : List ℚ
  median : ℚ
  mean : ℚ
  worst_time : ℚ
  std_dev : ℚ
deriving DecidableEq, Inhabited

abbrev Results := List ZoneResult

structure State where
  status : Status := Status.Ready
  zones : List Zone := []
  target_zone : ℕ := 0
  recorded_slices : ℤ := 0
  warmup_runs_left : ℤ := 0
deriving DecidableEq, Inhabited

structure Config where
  report_out_mode : ReportOutMode := ReportOutMode.ConsoleOut
  report_time_mode : ReportTimeMode := ReportTimeMode.Ms
  target_sample_count : ℤ := 100
  warmup_runs : ℤ := 10
  done_cb : Option ℕ := none
deriving DecidableEq, Inhabited

/-- The whole process-wide mutable surface of the header: dt_state, config,
and the two inline result globals. -/
structure Globals where
  dt_state : State
  config : Config
  results : Results
  result_str : String
deriving DecidableEq, Inhabited

/-- The state of the freshly included header: default-initialised globals. -/
def initGlobals : Globals :=
  { dt_state := {}, config := {}, results := [], result_str := "" }

/-! Primitive helpers modelling C++ library calls. -/

/-- Truncation toward zero: the (int) cast and the integral part of modf. -/
def qtrunc (q : ℚ) : ℤ := if 0 ≤ q then ⌊q⌋ else -⌊-q⌋

/-- std::round: rounding half away from zero. -/
def cround (q : ℚ) : ℤ := if 0 ≤ q then ⌊q + 1/2⌋ else -⌊-q + 1/2⌋

def digitChar (d : ℕ) : Char := Char.ofNat (48 + d)

def natToStrAux : ℕ → ℕ → List Char → List Char
  | 0, _, acc => acc
  | fuel+1, n, acc =>
    if n < 10 then digitChar n :: acc
    else natToStrAux fuel (n / 10) (digitChar (n % 10) :: acc)

/-- Decimal rendering of a natural number, as std::to_string produces. -/
def natToString (n : ℕ) : String := ⟨natToStrAux (n+1) n []⟩

/-- std::to_string on int. -/
def intToString (i : ℤ) : String :=
  if i < 0 then "-" ++ natToString i.natAbs else natToString i.natAbs

/-- std::string::resize(n, c): truncate to n characters or pad with c. -/
def strResize (s : String) (n : ℕ) (c : Char) : String :=
  ⟨s.data.take n ++ List.replicate (n - s.data.length) c⟩

def spacesStr (n : ℕ) : String := ⟨List.replicate n ' '⟩

/-- printf "%-*s": left-justify in a field of at least w characters. -/
def padRight (s : String) (w : ℕ) : String := s ++ spacesStr (w - s.data.length)

/-- printf "%*s": right-justify in a field of at least w characters. -/
def padLeftSp (s : String) (w : ℕ) : String := spacesStr (w - s.data.length) ++ s

/-- std::find_if + std::distance: index of the first match. -/
def find_index {α : Type} (p : α → Bool) : List α → Option ℕ
  | [] => none
  | x :: xs => if p x then some 0 else (find_index p xs).map (fun i => i + 1)

/-- In-place update of the element at an index (no-op when out of range). -/
def update_at {α : Type} (f : α → α) : ℕ → List α → List α
  | _, [] => []
  | 0, x :: xs => f x :: xs
  | n+1, x :: xs => x :: update_at f n xs

def insertSorted (x : ℚ) : List ℚ → List ℚ
  | [] => [x]
  | y :: ys => if x ≤ y then x :: y :: ys else y :: insertSorted x ys

/-- std::sort ascending (insertion sort gives the same sorted list). -/
def sortQ (l : List ℚ) : List ℚ := l.foldr insertSorted []

/-! dt::details -/

def get_zone_index (zone_name : String) (state : State) : ℤ :=
  match find_index (fun z => decide (z.name = zone_name)) state.zones with
  | none => -1
  | some i => (i : ℤ)

def is_zone_known (zone_name : String) (state : State) : Bool :=
  decide (get_zone_index zone_name state ≠ -1)

def is_sample_target_reached (state : State) (pconfig : Config) : Bool :=
  decide (pconfig.target_sample_count ≤ state.recorded_slices)

def are_all_zones_done (state : State) : Bool :=
  decide (state.zones.length ≤ state.target_zone)

/-- Doesn't touch zone names or status (t0 is not modelled). -/
def reset_state (pconfig : Config) (state : State) : State :=
  { state with
    target_zone := 0
    recorded_slices := 0
    warmup_runs_left := pconfig.warmup_runs
    zones := state.zones.map (fun z => { z with frame_times := [] }) }

def get_median (sorted_vec : List ℚ) : ℚ :=
  if sorted_vec = [] then 0
  else if sorted_vec.length % 2 = 0 then
    let i_middle_left := sorted_vec.length / 2 - 1
    (1/2 : ℚ) * (sorted_vec.getD i_middle_left 0 + sorted_vec.getD (i_middle_left + 1) 0)
  else
    sorted_vec.getD (sorted_vec.length / 2) 0

def get_mean (vec : List ℚ) : ℚ :=
  (vec.foldl (fun sum value => sum + value) 0) / (vec.length : ℚ)

/-- Bessel-corrected; std::sqrt is the uninterpreted sq. -/
def get_std_dev (sq : ℚ → ℚ) (vec : List ℚ) (mean : ℚ) : ℚ :=
  sq ((vec.foldl (fun squares value => squares + (value - mean) * (value - mean)) 0)
      / ((vec.length : ℚ) - 1))

/-- .back() of the sorted vector, defaulting like the C++ would misbehave on
an empty vector; every zone present at evaluation has recorded samples. -/
def get_results (sq : ℚ → ℚ) (zones : List Zone) : Results :=
  zones.map (fun zone =>
    let sorted_times := sortQ zone.frame_times
    let median := get_median sorted_times
    let mean := get_mean sorted_times
    let std_dev := get_std_dev sq sorted_times mean
    { name := zone.name
      sorted_times := sorted_times
      median := median
      mean := mean
      worst_time := sorted_times.getLastD 0
      std_dev := std_dev })

def record_slice (state : State) (time_delta_ms : ℚ) : State :=
  { state with
    zones := update_at (fun z => { z with frame_times := z.frame_times ++ [time_delta_ms] })
      state.target_zone state.zones
    recorded_slices := state.recorded_slices + 1 }

def start_next_zone_measurement (state : State) : State :=
  { state with target_zone := state.target_zone + 1, recorded_slices := 0 }

/-! dt::details::printing -/

def get_max_zone_name_len (lresults : Results) (min_len : ℕ) : ℕ :=
  lresults.foldl (fun m result => max m result.name.data.length) min_len

inductive EvalType where
  | Median
  | Mean
  | Worst
  | StdDev
deriving DecidableEq, Inhabited

def get_result_eval (result : ZoneResult) (eval_type : EvalType)
    (time_mode : ReportTimeMode) : ℚ :=
  if eval_type = EvalType.StdDev then result.std_dev
  else
    let ms_value :=
      if eval_type = EvalType.Median then result.median
      else if eval_type = EvalType.Mean then result.mean
      else if eval_type = EvalType.Worst then result.worst_time
      else 0
    if time_mode = ReportTimeMode.Ms then ms_value else 1000 / ms_value

def digit_count (n : ℕ) : ℕ := (natToString n).data.length

/-- (int)log10 + 1, clamped at 0; exact decimal digit count for x ≥ 1. -/
def auto_get_digits_before_point (num : ℚ) : ℤ :=
  if |num| < 1 then 0
  else max ((digit_count (qtrunc |num|).natAbs : ℤ)) 0

def get_fractional_string (num : ℚ) (digits : ℕ) : String :=
  let integral : ℤ := qtrunc num
  let fractional := num - (integral : ℚ)
  let x := fractional * (10 : ℚ) ^ digits
  let i := cround x
  strResize (intToString i) digits (Char.ofNat 48)

def get_num_str (num : ℚ) (significant_digits : ℤ) (with_sign : Bool) : String :=
  let s₀ := if with_sign then (if num < 0 then "-" else "+") else ""
  let abs_num := |num|
  let whole_rounded := cround abs_num
  let rounded_predot_digits := auto_get_digits_before_point (whole_rounded : ℚ)
  if significant_digits ≤ rounded_predot_digits then s₀ ++ intToString whole_rounded
  else
    let predot_digits := auto_get_digits_before_point abs_num
    let s₁ := s₀ ++ intToString (qtrunc abs_num)
    let digits_left := significant_digits - predot_digits
    if 0 < digits_left then s₁ ++ "." ++ get_fractional_string abs_num digits_left.toNat
    else s₁

def get_percentage (numerator denominator : ℚ) : ℚ :=
  100 * numerator / denominator

def get_cell_str (result baseline_result : ZoneResult) (is_null_zone : Bool)
    (eval_type : EvalType) (time_mode : ReportTimeMode) : String :=
  let value := get_result_eval result eval_type time_mode
  if eval_type = EvalType.StdDev then
    get_num_str (get_percentage value result.mean) 3 false
  else
    let cell_str := get_num_str value 3 false
    if is_null_zone then cell_str
    else
      let baseline := get_result_eval baseline_result eval_type time_mode
      let diff := value - baseline
      let improv_percent := get_percentage diff baseline
      cell_str ++ " (" ++ get_num_str improv_percent 2 true ++ "%)"

structure TableRow where
  cells : List String := []
  max_width : ℕ := 3
deriving DecidableEq, Inhabited

structure ResultTable where
  median : TableRow
  mean : TableRow
  worst : TableRow
  std_dev : TableRow
deriving DecidableEq, Inhabited

def get_table_row (presults : Results) (eval_type : EvalType)
    (time_mode : ReportTimeMode) : TableRow :=
  let cells := (List.range presults.length).map (fun i =>
    get_cell_str (presults.getD i default) (presults.getD 0 default)
      (decide (i = 0)) eval_type time_mode)
  { cells := cells, max_width := cells.foldl (fun w c => max w c.data.length) 3 }

def get_result_table (lresults : Results) (time_mode : ReportTimeMode) : ResultTable :=
  { median := get_table_row lresults EvalType.Median time_mode
    mean := get_table_row lresults EvalType.Mean time_mode
    worst := get_table_row lresults EvalType.Worst time_mode
    std_dev := get_table_row lresults EvalType.StdDev time_mode }

def get_united_str (description : String) (pconfig : Config) : String :=
  if pconfig.report_time_mode = ReportTimeMode.Fps then description ++ "[fps]"
  else description ++ "[ms]"

/-- The header row printed by header_print ("%*s %-*s %-*s %-*s %-*s\n").
The size-probe-then-fill double pass of the source collapses into direct
string construction. -/
def header_line (name_col_len : ℕ) (table : ResultTable) (pconfig : Config) : String :=
  padLeftSp "" name_col_len ++ " "
    ++ padRight (get_united_str "median" pconfig) table.median.max_width ++ " "
    ++ padRight (get_united_str "mean" pconfig) table.mean.max_width ++ " "
    ++ padRight (get_united_str "worst" pconfig) table.worst.max_width ++ " "
    ++ padRight "std dev[%]" table.std_dev.max_width ++ "\n"

/-- One zone row printed by row_print ("%-*s %-*s %-*s %-*s %-*s\n"). -/
def row_line (name_col_len : ℕ) (name_col : String) (table : ResultTable)
    (i : ℕ) : String :=
  padRight name_col name_col_len ++ " "
    ++ padRight (table.median.cells.getD i "") table.median.max_width ++ " "
    ++ padRight (table.mean.cells.getD i "") table.mean.max_width ++ " "
    ++ padRight (table.worst.cells.getD i "") table.worst.max_width ++ " "
    ++ padRight (table.std_dev.cells.getD i "") table.std_dev.max_width ++ "\n"

def get_result_str (lresults : Results) (pconfig : Config) : String :=
  let name_col_len := get_max_zone_name_len lresults 3 + 4 + 1
  let table := get_result_table lresults pconfig.report_time_mode
  let rows := (List.range lresults.length).map (fun i =>
    let name_col := (if i = 0 then "all" else "w/o " ++ (lresults.getD i default).name) ++ ":"
    row_line name_col_len name_col table i)
  header_line name_col_len table pconfig ++ String.join rows ++ "\x00"

/-- Stores results and the rendered string, then returns to Ready.  The
printf output and the done_cb invocation are external effects. -/
def evaluate (sq : ℚ → ℚ) (g : Globals) : Globals :=
  let presults := get_results sq g.dt_state.zones
  { g with
    results := presults
    result_str := get_result_str presults g.config
    dt_state := { g.dt_state with status := Status.Ready } }

/-! dt public API -/

def zone (zone_name : String) (state : State) : Bool × State :=
  let s₁ :=
    if state.zones = [] then { state with zones := [{ name := "", frame_times := [] }] }
    else state
  let s₂ :=
    if is_zone_known zone_name s₁ then s₁
    else { s₁ with zones := s₁.zones ++ [{ name := zone_name, frame_times := [] }] }
  if s₂.status = Status.Measuring then
    let current_zone := (get_zone_index zone_name s₂).toNat
    if s₂.target_zone = 0 then (true, s₂)
    else (decide (current_zone ≠ s₂.target_zone), s₂)
  else (true, s₂)

def zone_g (zone_name : String) (g : Globals) : Bool × Globals :=
  let r := zone zone_name g.dt_state
  (r.1, { g with dt_state := r.2 })

def start (state : State) : State :=
  if state.status = Status.Ready then { state with status := Status.Starting } else state

def start_g (g : Globals) : Globals := { g with dt_state := start g.dt_state }

def slice (sq : ℚ → ℚ) (time_delta_ms : ℚ) (g : Globals) : Globals :=
  if g.dt_state.status = Status.Ready then g
  else if g.dt_state.status = Status.Starting then
    { g with dt_state := { reset_state g.config g.dt_state with status := Status.Measuring } }
  else
    if 0 < g.dt_state.warmup_runs_left then
      { g with dt_state :=
        { g.dt_state with warmup_runs_left := g.dt_state.warmup_runs_left - 1 } }
    else
      let s₁ := record_slice g.dt_state time_delta_ms
      if is_sample_target_reached s₁ g.config then
        let s₂ := start_next_zone_measurement s₁
        if are_all_zones_done s₂ then evaluate sq { g with dt_state := s₂ }
        else { g with dt_state := s₂ }
      else { g with dt_state := s₁ }

def set_sample_count (sample_count : ℤ) (g : Globals) : Globals :=
  { g with config := { g.config with target_sample_count := sample_count } }

def set_warmup_runs (warmup_runs : ℤ) (g : Globals) : Globals :=
  { g with config := { g.config with warmup_runs := warmup_runs } }

def set_report_out_mode (report_out_mode : ReportOutMode) (g : Globals) : Globals :=
  { g with config := { g.config with report_out_mode := report_out_mode } }

def set_report_time_mode (report_time_mode : ReportTimeMode) (g : Globals) : Globals :=
  { g with config := { g.config with report_time_mode := report_time_mode } }

def set_done_callback (cb : Option ℕ) (g : Globals) : Globals :=
  { g with config := { g.config with done_cb := cb } }

def are_results_ready (g : Globals) : Bool :=
  decide (g.dt_state.status = Status.Ready) && decide (0 < g.dt_state.recorded_slices)

def clear_results (g : Globals) : Globals :=
  { g with results := [], result_str := "" }

def factory_reset (g : Globals) : Globals :=
  let s₁ := { g.dt_state with zones := ([] : List Zone) }
  let s₂ := { s₁ with status := Status.Ready }
  clear_results { g with dt_state := reset_state g.config s₂ }

/-! Reachability: every public entry point of the header as a step. -/

inductive Reach (sq : ℚ → ℚ) : Globals → Prop where
  | init : Reach sq initGlobals
  | zone_step (g : Globals) (zone_name : String) :
      Reach sq g → Reach sq (zone_g zone_name g).2
  | start_step (g : Globals) : Reach sq g → Reach sq (start_g g)
  | slice_step (g : Globals) (t : ℚ) : Reach sq g → Reach sq (slice sq t g)
  | set_sample_step (g : Globals) (n : ℤ) : Reach sq g → Reach sq (set_sample_count n g)
  | set_warmup_step (g : Globals) (n : ℤ) : Reach sq g → Reach sq (set_warmup_runs n g)
  | set_out_step (g : Globals) (m : ReportOutMode) :
      Reach sq g → Reach sq (set_report_out_mode m g)
  | set_time_step (g : Globals) (m : ReportTimeMode) :
      Reach sq g → Reach sq (set_report_time_mode m g)
  | set_cb_step (g : Globals) (cb : Option ℕ) :
      Reach sq g → Reach sq (set_done_callback cb g)
  | clear_step (g : Globals) : Reach sq g → Reach sq (clear_results g)
  | reset_step (g : Globals) : Reach sq g → Reach sq (factory_reset g)

/-- Reachability from a fixed start by zone/start/slice calls only
(configuration untouched during the session). -/
inductive ReachZSS (sq : ℚ → ℚ) (g₀ : Globals) : Globals → Prop where
  | init : ReachZSS sq g₀ g₀
  | zone_step (g : Globals) (zone_name : String) :
      ReachZSS sq g₀ g → ReachZSS sq g₀ (zone_g zone_name g).2
  | start_step (g : Globals) : ReachZSS sq g₀ g → ReachZSS sq g₀ (start_g g)
  | slice_step (g : Globals) (t : ℚ) : ReachZSS sq g₀ g → ReachZSS sq g₀ (slice sq t g)

/-- Calls a host loop may make inside one iteration, between two slices. -/
inductive IterOp where
  | iter_zone (zone_name : String)
  | iter_start

def apply_iter (s : State) (op : IterOp) : State :=
  match op with
  | IterOp.iter_zone n => (zone n s).2
  | IterOp.iter_start => start s

def apply_iters (s : State) (ops : List IterOp) : State := ops.foldl apply_iter s

/-! Spec-side formatter, for the refinement claim about get_num_str. -/

def pad_left_zeros (s : String) (n : ℕ) : String :=
  ⟨List.replicate (n - s.data.length) (Char.ofNat 48) ++ s.data⟩

/-- Modelled from the spec: the fractional suffix of the remaining digit
budget, rounded at that precision — the fraction's numerator rounded to
digits decimal places and written with exactly that many digits. -/
def spec_fractional_string (num : ℚ) (digits : ℕ) : String :=
  pad_left_zeros (intToString (cround ((num - (qtrunc num : ℚ)) * (10 : ℚ) ^ digits))) digits

/-- Modelled from the spec: all integer digits when rounding to the nearest
integer already uses up the digit budget, otherwise the integer part
verbatim plus the fractional suffix of the remaining digit budget rounded
at that precision, with an optional leading sign. -/
def spec_num_str (num : ℚ) (significant_digits : ℤ) (with_sign : Bool) : String :=
  let s₀ := if with_sign then (if num < 0 then "-" else "+") else ""
  let abs_num := |num|
  let whole_rounded := cround abs_num
  if significant_digits ≤ auto_get_digits_before_point (whole_rounded : ℚ) then
    s₀ ++ intToString whole_rounded
  else
    let digits_left := significant_digits - auto_get_digits_before_point abs_num
    if 0 < digits_left then
      s₀ ++ intToString (qtrunc abs_num) ++ "." ++ spec_fractional_string abs_num digits_left.toNat
    else s₀ ++ intToString (qtrunc abs_num)

/-! Concrete traces and auxiliary states used by individual claims. -/

/-- sample_count 1, warmup 1. -/
def c1cfg : Config := { target_sample_count := 1, warmup_runs := 1 }

/-- Register zone a, begin, first slice enters Measuring, one warmup slice,
then the slice that completes the baseline configuration. -/
def c1g5 : Globals :=
  slice id 5 (slice id 5 (slice id 0 (start_g (zone_g "a" { initGlobals with config := c1cfg }).2)))

/-- The slice right after the machine advanced to the next zone configuration. -/
def c1g6 : Globals := slice id 7 c1g5

/-- sample_count 1, warmup 0. -/
def c2cfg : Config := { target_sample_count := 1, warmup_runs := 0 }

/-- Register zone a, begin, enter Measuring. -/
def c2g3 : Globals := slice id 0 (start_g (zone_g "a" { initGlobals with config := c2cfg }).2)

/-- Zone b is first seen now, in the middle of the Measuring pass. -/
def c2g4 : Globals := (zone_g "b" c2g3).2

/-- Baseline and zone a each complete with one sample. -/
def c2g6 : Globals := slice id 2 (slice id 1 c2g4)

/-- The slice recorded while zone b itself is the suppressed target; it
completes the pass and evaluates. -/
def c2g7 : Globals := slice id 3 c2g6

/-- A Measuring state with only the null zone, for the C2 witness. -/
def c2ws : State :=
  { status := Status.Measuring, zones := [{ name := "", frame_times := [] }], target_zone := 0 }

/-- A Measuring state suppressing zone index 1, for the C4 witness. -/
def c4ws : State :=
  { status := Status.Measuring
    zones := [{ name := "", frame_times := [] }, { name := "a", frame_times := [] },
              { name := "b", frame_times := [] }]
    target_zone := 1 }

/-- sample_count 1, warmup 0. -/
def c8cfg : Config := { target_sample_count := 1, warmup_runs := 0 }

def c8g0 : Globals := { initGlobals with config := c8cfg }

/-- begin, then two slices, with no zone call ever made. -/
def c8g : Globals := slice id 0 (slice id 0 (start_g c8g0))

def c8wcfg : Config := {}

def c8wg : Globals := { initGlobals with config := c8wcfg }

def c7r0 : ZoneResult :=
  { name := "", sorted_times := [], median := 2, mean := 2, worst_time := 2, std_dev := 0 }

def c7r1 : ZoneResult :=
  { name := "a", sorted_times := [], median := 3, mean := 3, worst_time := 3, std_dev := 0 }

/-- The registration half of zone: lazily create the null zone, then the
entry for zone_name if it is new. -/
def zone_reg (zone_name : String) (s : State) : State :=
  let s₁ :=
    if s.zones = [] then { s with zones := [{ name := "", frame_times := [] }] }
    else s
  if is_zone_known zone_name s₁ then s₁
  else { s₁ with zones := s₁.zones ++ [{ name := zone_name, frame_times := [] }] }

/-- The toggling decision of zone as a pure observation of the
post-registration state. -/
def zone_visible (zone_name : String) (s : State) : Bool :=
  if s.status = Status.Measuring then
    if s.target_zone = 0 then true
    else decide ((get_zone_index zone_name s).toNat ≠ s.target_zone)
  else true

/-- Inductive invariant for the zone/start/slice fragment under a fixed
configuration with at least one requested sample. -/
def c8inv (c : Config) (g : Globals) : Prop :=
  g.config = c ∧
  g.dt_state.recorded_slices < c.target_sample_count ∧
  g.dt_state.target_zone ≤ max g.dt_state.zones.length 1 ∧
  (g.dt_state.status = Status.Measuring →
    (g.dt_state.zones.length = 0 ∧ g.dt_state.target_zone = 0) ∨
    g.dt_state.target_zone < g.dt_state.zones.length)

/-! Theorems.  General lemmas first, then one theorem per claim. -/

theorem find_index_append_some {α : Type} {p : α → Bool} {l₁ : List α} {i : ℕ}
    (l₂ : List α) (h : find_index p l₁ = some i) :
    find_index p (l₁ ++ l₂) = some i := by
  induction l₁ generalizing i with
  | nil => simp [find_index] at h
  | cons x xs ih =>
    by_cases hx : p x
    · simp [find_index, hx] at h ⊢
      exact h
    · simp [find_index, hx] at h ⊢
      obtain ⟨j, hj, hij⟩ := h
      exact ⟨j, ih hj, hij⟩

theorem find_index_append_none {α : Type} {p : α → Bool} {l₁ : List α}
    (l₂ : List α) (h : find_index p l₁ = none) :
    find_index p (l₁ ++ l₂) = (find_index p l₂).map (fun i => i + l₁.length) := by
  induction l₁ with
  | nil =>
    simp [find_index]
  | cons x xs ih =>
    by_cases hx : p x
    · simp [find_index, hx] at h
    · simp [find_index, hx] at h ⊢
      rw [ih h]
      cases find_index p l₂ <;> simp
      omega

theorem update_at_length {α : Type} (f : α → α) (i : ℕ) (l : List α) :
    (update_at f i l).length = l.length := by
  induction l generalizing i with
  | nil => cases i <;> rfl
  | cons x xs ih =>
    cases i with
    | zero => rfl
    | succ n => simpa [update_at] using ih n

theorem zone_eq (zone_name : String) (s : State) :
    zone zone_name s = (zone_visible zone_name (zone_reg zone_name s), zone_reg zone_name s) := by
  simp only [zone, zone_reg, zone_visible]
  split_ifs <;> rfl

theorem zone_snd (zone_name : String) (s : State) :
    (zone zone_name s).2 = zone_reg zone_name s := by
  rw [zone_eq]

theorem zone_fst (zone_name : String) (s : State) :
    (zone zone_name s).1 = zone_visible zone_name (zone_reg zone_name s) := by
  rw [zone_eq]

theorem zone_reg_status (zone_name : String) (s : State) :
    (zone_reg zone_name s).status = s.status := by
  simp only [zone_reg]
  split_ifs <;> rfl

theorem zone_reg_target (zone_name : String) (s : State) :
    (zone_reg zone_name s).target_zone = s.target_zone := by
  simp only [zone_reg]
  split_ifs <;> rfl

theorem zone_reg_recorded (zone_name : String) (s : State) :
    (zone_reg zone_name s).recorded_slices = s.recorded_slices := by
  simp only [zone_reg]
  split_ifs <;> rfl

theorem zone_reg_warmup (zone_name : String) (s : State) :
    (zone_reg zone_name s).warmup_runs_left = s.warmup_runs_left := by
  simp only [zone_reg]
  split_ifs <;> rfl

theorem zone_reg_ne_nil (zone_name : String) (s : State) :
    (zone_reg zone_name s).zones ≠ [] := by
  simp only [zone_reg]
  split_ifs with h1 h2 h3 <;> simp_all

theorem zone_reg_zones_len (zone_name : String) (s : State) :
    s.zones.length ≤ (zone_reg zone_name s).zones.length := by
  simp only [zone_reg]
  split_ifs with h1 h2 h3 <;> simp_all

theorem get_zone_index_none_iff (zone_name : String) (t : State) :
    get_zone_index zone_name t = -1 ↔
      find_index (fun z => decide (z.name = zone_name)) t.zones = none := by
  unfold get_zone_index
  cases h : find_index (fun z => decide (z.name = zone_name)) t.zones <;> simp [h]

theorem is_zone_known_false_iff (zone_name : String) (t : State) :
    is_zone_known zone_name t = false ↔
      find_index (fun z => decide (z.name = zone_name)) t.zones = none := by
  unfold is_zone_known
  rw [← get_zone_index_none_iff]
  simp

theorem zone_reg_of_known (zone_name : String) (s : State)
    (hk : is_zone_known zone_name s = true) (hne : s.zones ≠ []) :
    zone_reg zone_name s = s := by
  simp only [zone_reg]
  simp [hne, hk]

theorem zone_reg_of_new (zone_name : String) (s : State)
    (hk : is_zone_known zone_name s = false) (hne : s.zones ≠ []) :
    zone_reg zone_name s = { s with zones := s.zones ++ [{ name := zone_name, frame_times := [] }] } := by
  simp only [zone_reg]
  simp [hne, hk]

theorem get_zone_index_append_new (zone_name : String) (s : State)
    (hk : is_zone_known zone_name s = false) :
    get_zone_index zone_name { s with zones := s.zones ++ [{ name := zone_name, frame_times := [] }] }
      = (s.zones.length : ℤ) := by
  have hnone := (is_zone_known_false_iff zone_name s).mp hk
  unfold get_zone_index
  rw [find_index_append_none _ hnone]
  simp [find_index]

theorem zone_reg_known (zone_name : String) (s : State) :
    is_zone_known zone_name (zone_reg zone_name s) = true := by
  by_cases h1 : s.zones = []
  · unfold zone_reg
    by_cases h2 : is_zone_known zone_name { s with zones := [{ name := "", frame_times := [] }] }
    · simp [h1, h2]
    · simp only [h1, if_pos rfl, Bool.not_eq_true] at h2 ⊢
      rw [if_neg (by simp [h2])]
      have := get_zone_index_append_new zone_name
        { s with zones := [{ name := "", frame_times := [] }] } h2
      unfold is_zone_known at h2 ⊢
      simp at this
      simp [this]
  · by_cases h2 : is_zone_known zone_name s
    · rw [zone_reg_of_known zone_name s h2 h1, h2]
    · rw [zone_reg_of_new zone_name s (by simpa using h2) h1]
      have := get_zone_index_append_new zone_name s (by simpa using h2)
      unfold is_zone_known
      simp [this]

theorem zone_visible_congr (zone_name : String) (t t' : State)
    (hs : t'.status = Status.Measuring ↔ t.status = Status.Measuring)
    (ht : t'.target_zone = t.target_zone)
    (hi : get_zone_index zone_name t' = get_zone_index zone_name t) :
    zone_visible zone_name t' = zone_visible zone_name t := by
  unfold zone_visible
  by_cases hm : t.status = Status.Measuring
  · rw [if_pos (hs.mpr hm), if_pos hm, ht, hi]
  · rw [if_neg (fun h => hm (hs.mp h)), if_neg hm]

theorem slice_ready (sq : ℚ → ℚ) (t : ℚ) (g : Globals)
    (h : g.dt_state.status = Status.Ready) : slice sq t g = g := by
  simp only [slice, if_pos h]

theorem slice_starting (sq : ℚ → ℚ) (t : ℚ) (g : Globals)
    (h : g.dt_state.status = Status.Starting) :
    slice sq t g =
      { g with dt_state := { reset_state g.config g.dt_state with status := Status.Measuring } } := by
  simp only [slice, h]
  rfl

theorem slice_warmup (sq : ℚ → ℚ) (t : ℚ) (g : Globals)
    (h : g.dt_state.status = Status.Measuring) (hw : 0 < g.dt_state.warmup_runs_left) :
    slice sq t g =
      { g with dt_state :=
        { g.dt_state with warmup_runs_left := g.dt_state.warmup_runs_left - 1 } } := by
  simp only [slice, h, if_pos hw]
  rfl

theorem slice_record_eq (sq : ℚ → ℚ) (t : ℚ) (g : Globals)
    (h : g.dt_state.status = Status.Measuring) (hw : ¬ 0 < g.dt_state.warmup_runs_left) :
    slice sq t g =
      if is_sample_target_reached (record_slice g.dt_state t) g.config then
        if are_all_zones_done (start_next_zone_measurement (record_slice g.dt_state t)) then
          evaluate sq { g with dt_state := start_next_zone_measurement (record_slice g.dt_state t) }
        else { g with dt_state := start_next_zone_measurement (record_slice g.dt_state t) }
      else { g with dt_state := record_slice g.dt_state t } := by
  simp only [slice, h, if_neg hw]
  rfl

/-- C9: after factory_reset, from any state, the zone list is empty, the
phase is Ready, the stored results and the report string are cleared, and
every configuration field (sample count, warmup count, output mode,
time-unit mode, completion callback) is unchanged. -/
theorem C9_factory_reset_state (g : Globals) :
    (factory_reset g).dt_state.zones = [] ∧
    (factory_reset g).dt_state.status = Status.Ready ∧
    (factory_reset g).results = [] ∧
    (factory_reset g).result_str = "" ∧
    (factory_reset g).config = g.config :=
  ⟨rfl, rfl, rfl, rfl, rfl⟩

/-- C5: get_median returns 0 on the empty list, the middle element for odd
length, and the arithmetic mean of the two middle elements for even length;
in particular on [], [2], [1,2,3], [2,4] and [1,2,3,4] it returns 0, 2, 2,
3 and 2.5. -/
theorem C5_median_spec :
    get_median ([] : List ℚ) = 0 ∧
    get_median [2] = 2 ∧
    get_median [1, 2, 3] = 2 ∧
    get_median [2, 4] = 3 ∧
    get_median [1, 2, 3, 4] = 5/2 ∧
    (∀ (l : List ℚ) (i : ℕ), l.length = 2 * i + 1 → get_median l = l.getD i 0) ∧
    (∀ (l : List ℚ) (i : ℕ), l.length = 2 * i + 2 →
      get_median l = (l.getD i 0 + l.getD (i + 1) 0) / 2) := by
  refine ⟨by decide, by decide, by decide, by decide, by decide, ?_, ?_⟩
  · intro l i h
    have hne : l ≠ [] := by
      intro h0
      rw [h0] at h
      simp at h
    have hmod : ¬(l.length % 2 = 0) := by omega
    have hdiv : l.length / 2 = i := by omega
    simp only [get_median, if_neg hne, if_neg hmod, hdiv]
  · intro l i h
    have hne : l ≠ [] := by
      intro h0
      rw [h0] at h
      simp at h
    have hmod : l.length % 2 = 0 := by omega
    have hdiv : l.length / 2 - 1 = i := by omega
    simp only [get_median, if_neg hne, if_pos hmod, hdiv]
    ring

theorem C5_median_spec_witness :
    get_median [5, 6, 7, 8] = (([5, 6, 7, 8] : List ℚ).getD 1 0 + ([5, 6, 7, 8] : List ℚ).getD 2 0) / 2 :=
  C5_median_spec.2.2.2.2.2.2 [5, 6, 7, 8] 1 (by decide)

/-- C4: zone returns true whenever the phase is not Measuring, and when
Measuring with target_zone 0; when Measuring with target_zone > 0 it
returns false exactly for the name whose zone index equals target_zone. -/
theorem C4_zone_toggle (s : State) (zone_name : String) :
    (s.status ≠ Status.Measuring → (zone zone_name s).1 = true) ∧
    (s.status = Status.Measuring → s.target_zone = 0 → (zone zone_name s).1 = true) ∧
    (s.status = Status.Measuring → s.target_zone ≠ 0 →
      ((zone zone_name s).1 = false ↔
        (get_zone_index zone_name (zone zone_name s).2).toNat = s.target_zone)) := by
  rw [zone_fst, zone_snd]
  unfold zone_visible
  rw [zone_reg_status, zone_reg_target]
  refine ⟨fun h => by rw [if_neg h], fun hm h0 => by rw [if_pos hm, if_pos h0], fun hm h0 => ?_⟩
  rw [if_pos hm, if_neg h0]
  simp

theorem C4_zone_toggle_witness :
    ((zone "a" c4ws).1 = false) ∧ ((zone "b" c4ws).1 = true) ∧
    ((zone "x" initGlobals.dt_state).1 = true) := by
  refine ⟨((C4_zone_toggle c4ws "a").2.2 rfl (by decide)).mpr (by decide), ?_,
    (C4_zone_toggle initGlobals.dt_state "x").1 (by decide)⟩
  cases hb : (zone "b" c4ws).1 with
  | false => exact absurd (((C4_zone_toggle c4ws "b").2.2 rfl (by decide)).mp hb) (by decide)
  | true => rfl

/-- C1: in the c1 trace (sample_count 1, warmup 1, one registered zone) the
slice that completes the baseline configuration advances target_zone to 1
but leaves warmup_runs_left at 0 instead of re-arming it to the configured
warmup count, so the very next slice is recorded into zone a's samples
rather than discarded: the code does not re-arm warmup on zone advance. -/
theorem C1_warmup_not_rearmed :
    c1g5.dt_state.status = Status.Measuring ∧
    c1g5.dt_state.target_zone = 1 ∧
    c1cfg.warmup_runs = 1 ∧
    c1g5.dt_state.warmup_runs_left = 0 ∧
    (c1g5.dt_state.zones.getD 1 default).frame_times = [] ∧
    (c1g6.dt_state.zones.getD 1 default).frame_times = [7] := by
  decide

/-- C2 counterexample: zone b is first seen while the phase is Measuring,
yet within the same pass it is suppressed (the zone predicate answers false
for it) and it records a sample, which ends up in the results of this very
pass - contradicting the claim that it participates only from the next
pass. -/
theorem C2_counterexample :
    c2g3.dt_state.status = Status.Measuring ∧
    is_zone_known "b" c2g3.dt_state = false ∧
    c2g4.dt_state.status = Status.Measuring ∧
    (zone_g "b" c2g6).1 = false ∧
    c2g7.dt_state.status = Status.Ready ∧
    (c2g7.results.getD 2 default).name = "b" ∧
    (c2g7.results.getD 2 default).sorted_times = [3] := by
  decide

/-- C2 (amended): a zone name first passed to zone() while the phase is
Measuring is appended to the zone list immediately and participates in the
current pass: it becomes a known zone at index zones.length, the pass is
not complete (are_all_zones_done is false), and the new index is still
ahead of target_zone, so the pass will suppress it and record its samples
before evaluating. -/
theorem C2_amended_mid_pass (s : State) (zone_name : String)
    (hm : s.status = Status.Measuring) (hk : is_zone_known zone_name s = false)
    (hne : s.zones ≠ []) (ht : s.target_zone ≤ s.zones.length) :
    is_zone_known zone_name (zone zone_name s).2 = true ∧
    get_zone_index zone_name (zone zone_name s).2 = (s.zones.length : ℤ) ∧
    (zone zone_name s).2.target_zone = s.target_zone ∧
    (zone zone_name s).2.status = Status.Measuring ∧
    are_all_zones_done (zone zone_name s).2 = false := by
  rw [zone_snd]
  refine ⟨zone_reg_known zone_name s, ?_, zone_reg_target zone_name s,
    by rw [zone_reg_status]; exact hm, ?_⟩
  · rw [zone_reg_of_new zone_name s hk hne]
    exact get_zone_index_append_new zone_name s hk
  · rw [zone_reg_of_new zone_name s hk hne]
    unfold are_all_zones_done
    simp only [decide_eq_false_iff_not, List.length_append, List.length_cons, List.length_nil]
    omega

theorem C2_amended_mid_pass_witness :
    is_zone_known "b" (zone "b" c2ws).2 = true ∧
    get_zone_index "b" (zone "b" c2ws).2 = (c2ws.zones.length : ℤ) ∧
    (zone "b" c2ws).2.target_zone = c2ws.target_zone ∧
    (zone "b" c2ws).2.status = Status.Measuring ∧
    are_all_zones_done (zone "b" c2ws).2 = false :=
  C2_amended_mid_pass c2ws "b" rfl (by decide) (by decide) (by decide)

/-- C6 counterexample: on 0.05 with 2 significant digits the fractional
suffix "rounded at that precision" would be "05", but get_num_str renders
"50" (std::to_string(5) right-padded by resize), so the formatter differs
from the spec-described one at this input. -/
theorem C6_counterexample :
    get_num_str (1/20) 2 false = "0.50" ∧
    spec_num_str (1/20) 2 false = "0.05" ∧
    get_num_str (1/20) 2 false ≠ spec_num_str (1/20) 2 false := by
  decide

/-- C8 counterexample: with sample_count 1 and warmup 0 and no zone call
ever made, the trace begin-slice-slice runs a full measuring pass over the
empty zone list and leaves target_zone = 1 > 0 = zones.size(), violating
the claimed invariant (the C++ additionally indexes zones[0] out of bounds
while recording on this trace). -/
theorem C8_counterexample :
    (1 : ℤ) ≤ c8cfg.target_sample_count ∧
    ReachZSS id c8g0 c8g ∧
    ¬(c8g.dt_state.target_zone ≤ c8g.dt_state.zones.length) := by
  refine ⟨by decide, ?_, by decide⟩
  exact ReachZSS.slice_step _ 0 (ReachZSS.slice_step _ 0 (ReachZSS.start_step _ ReachZSS.init))

/-- C3: in every state reachable through the public API, status Ready
implies recorded_slices = 0, and consequently are_results_ready() is false
in every reachable state, including right after an evaluation completes
(the completed-pass advance zeroes recorded_slices before evaluate returns
the phase to Ready). -/
theorem C3_results_never_ready (sq : ℚ → ℚ) (g : Globals) (h : Reach sq g) :
    (g.dt_state.status = Status.Ready → g.dt_state.recorded_slices = 0) ∧
    are_results_ready g = false := by
  have key : g.dt_state.status = Status.Ready → g.dt_state.recorded_slices = 0 := by
    induction h with
    | init => intro _; rfl
    | zone_step g n hg ih =>
      have e : (zone_g n g).2.dt_state = zone_reg n g.dt_state := by
        rw [show (zone_g n g).2.dt_state = (zone n g.dt_state).2 from rfl, zone_snd]
      rw [e, zone_reg_status, zone_reg_recorded]
      exact ih
    | start_step g hg ih =>
      by_cases hr : g.dt_state.status = Status.Ready
      · intro h'
        rw [show (start_g g).dt_state = start g.dt_state from rfl, start, if_pos hr] at h'
        simp at h'
      · intro h'
        rw [show (start_g g).dt_state = start g.dt_state from rfl, start, if_neg hr] at h' ⊢
        exact ih h'
    | slice_step g t hg ih =>
      cases hst : g.dt_state.status with
      | Ready =>
        rw [slice_ready sq t g hst]
        exact ih
      | Starting =>
        rw [slice_starting sq t g hst]
        intro h'
        simp at h'
      | Measuring =>
        by_cases hw : 0 < g.dt_state.warmup_runs_left
        · rw [slice_warmup sq t g hst hw]
          intro h'
          simp at h'
          rw [h'] at hst
          simp at hst
        · rw [slice_record_eq sq t g hst hw]
          split_ifs with hreach hdone
          · intro _
            rfl
          · intro h'
            simp [start_next_zone_measurement, record_slice] at h'
            rw [h'] at hst
            simp at hst
          · intro h'
            simp [record_slice] at h'
            rw [h'] at hst
            simp at hst
    | set_sample_step g n hg ih => exact ih
    | set_warmup_step g n hg ih => exact ih
    | set_out_step g m hg ih => exact ih
    | set_time_step g m hg ih => exact ih
    | set_cb_step g cb hg ih => exact ih
    | clear_step g hg ih => exact ih
    | reset_step g hg ih => intro _; rfl
  refine ⟨key, ?_⟩
  unfold are_results_ready
  by_cases hr : g.dt_state.status = Status.Ready
  · rw [key hr]
    simp
  · simp [hr]

theorem C3_results_never_ready_witness :
    (initGlobals.dt_state.recorded_slices = 0) ∧ are_results_ready initGlobals = false :=
  ⟨(C3_results_never_ready id initGlobals Reach.init).1 rfl,
    (C3_results_never_ready id initGlobals Reach.init).2⟩

theorem c8inv_reach (sq : ℚ → ℚ) (c : Config) (g : Globals)
    (hsample : 1 ≤ c.target_sample_count)
    (h : ReachZSS sq { initGlobals with config := c } g) : c8inv c g := by
  induction h with
  | init =>
    refine ⟨rfl, ?_, Nat.zero_le _, fun hm => ?_⟩
    · show (0:ℤ) < c.target_sample_count
      omega
    · simp [initGlobals] at hm
  | zone_step g n hg ih =>
    obtain ⟨hc, hrec, htm, hmi⟩ := ih
    have e : (zone_g n g).2.dt_state = zone_reg n g.dt_state := by
      rw [show (zone_g n g).2.dt_state = (zone n g.dt_state).2 from rfl, zone_snd]
    refine ⟨hc, ?_, ?_, ?_⟩
    · rw [e, zone_reg_recorded]
      exact hrec
    · rw [e, zone_reg_target]
      exact le_trans htm (max_le_max (zone_reg_zones_len n _) le_rfl)
    · rw [e, zone_reg_status, zone_reg_target]
      intro hm
      rcases hmi hm with ⟨hl0, ht0⟩ | hlt
      · right
        rw [ht0]
        exact List.length_pos.mpr (zone_reg_ne_nil n _)
      · right
        exact lt_of_lt_of_le hlt (zone_reg_zones_len n _)
  | start_step g hg ih =>
    obtain ⟨hc, hrec, htm, hmi⟩ := ih
    by_cases hr : g.dt_state.status = Status.Ready
    · simp only [start_g, start, if_pos hr]
      refine ⟨hc, hrec, htm, fun hm => ?_⟩
      simp at hm
    · simp only [start_g, start, if_neg hr]
      exact ⟨hc, hrec, htm, hmi⟩
  | slice_step g t hg ih =>
    obtain ⟨hc, hrec, htm, hmi⟩ := ih
    rw [← hc] at hsample hrec ⊢
    cases hst : g.dt_state.status with
    | Ready =>
      rw [slice_ready sq t g hst]
      exact ⟨rfl, hrec, htm, hmi⟩
    | Starting =>
      rw [slice_starting sq t g hst]
      refine ⟨rfl, ?_, Nat.zero_le _, fun _ => ?_⟩
      · show (0:ℤ) < g.config.target_sample_count
        omega
      · by_cases hz : g.dt_state.zones.length = 0
        · left
          exact ⟨by simp [reset_state, hz], rfl⟩
        · right
          show 0 < (g.dt_state.zones.map _).length
          simp only [List.length_map]
          omega
    | Measuring =>
      by_cases hw : 0 < g.dt_state.warmup_runs_left
      · rw [slice_warmup sq t g hst hw]
        exact ⟨rfl, hrec, htm, fun _ => hmi hst⟩
      · rw [slice_record_eq sq t g hst hw]
        split_ifs with hreach hdone
        · refine ⟨rfl, by show (0:ℤ) < _; omega, ?_, fun hm => ?_⟩
          · show g.dt_state.target_zone + 1 ≤ max (update_at _ _ g.dt_state.zones).length 1
            rw [update_at_length]
            rcases hmi hst with ⟨hl0, ht0⟩ | hlt
            · rw [hl0, ht0]
              decide
            · have := le_max_left g.dt_state.zones.length 1
              omega
          · simp [evaluate] at hm
        · simp only [are_all_zones_done, start_next_zone_measurement, record_slice,
            decide_eq_true_eq, update_at_length, not_le] at hdone
          refine ⟨rfl, by show (0:ℤ) < _; omega, ?_, fun _ => ?_⟩
          · show g.dt_state.target_zone + 1 ≤ max (update_at _ _ g.dt_state.zones).length 1
            rw [update_at_length]
            have := le_max_left g.dt_state.zones.length 1
            omega
          · right
            show g.dt_state.target_zone + 1 < (update_at _ _ g.dt_state.zones).length
            rw [update_at_length]
            omega
        · simp only [is_sample_target_reached, record_slice, decide_eq_true_eq, not_le] at hreach
          refine ⟨rfl, ?_, ?_, fun _ => ?_⟩
          · show g.dt_state.recorded_slices + 1 < g.config.target_sample_count
            omega
          · show g.dt_state.target_zone ≤ max (update_at _ _ g.dt_state.zones).length 1
            rw [update_at_length]
            exact htm
          · rcases hmi hst with ⟨hl0, ht0⟩ | hlt
            · left
              refine ⟨?_, ht0⟩
              show (update_at _ _ g.dt_state.zones).length = 0
              rw [update_at_length]
              exact hl0
            · right
              show g.dt_state.target_zone < (update_at _ _ g.dt_state.zones).length
              rw [update_at_length]
              exact hlt

/-- C8 (amended): with the configuration fixed for the session and
sample_count at least 1, every state reachable by zone/start/slice calls in
which at least one zone call has happened (nonempty zone list) satisfies
recorded_slices ≤ target_sample_count and target_zone ≤ zones.size(), and
target_zone = zones.size() implies are_all_zones_done; without any zone
call a full pass over the empty zone list drives target_zone to
1 > 0 = zones.size(). -/
theorem C8_session_invariant (sq : ℚ → ℚ) (c : Config) (g : Globals)
    (hsample : 1 ≤ c.target_sample_count)
    (h : ReachZSS sq { initGlobals with config := c } g) :
    g.dt_state.recorded_slices ≤ c.target_sample_count ∧
    (g.dt_state.zones ≠ [] → g.dt_state.target_zone ≤ g.dt_state.zones.length) ∧
    (g.dt_state.target_zone = g.dt_state.zones.length → are_all_zones_done g.dt_state = true) := by
  obtain ⟨hc, hrec, htm, hmi⟩ := c8inv_reach sq c g hsample h
  refine ⟨le_of_lt hrec, ?_, ?_⟩
  · intro hne
    have h1 : 1 ≤ g.dt_state.zones.length := List.length_pos.mpr hne
    rw [max_eq_left h1] at htm
    exact htm
  · intro he
    unfold are_all_zones_done
    simp [he]

theorem C8_session_invariant_witness :
    c8wg.dt_state.recorded_slices ≤ c8wcfg.target_sample_count ∧
    (c8wg.dt_state.zones ≠ [] → c8wg.dt_state.target_zone ≤ c8wg.dt_state.zones.length) ∧
    (c8wg.dt_state.target_zone = c8wg.dt_state.zones.length →
      are_all_zones_done c8wg.dt_state = true) :=
  C8_session_invariant id c8wcfg c8wg (by decide) ReachZSS.init

theorem get_zone_index_append_of_known (zone_name : String) (t : State) (zs : List Zone)
    (hk : is_zone_known zone_name t = true) :
    get_zone_index zone_name { t with zones := t.zones ++ zs } = get_zone_index zone_name t := by
  unfold is_zone_known at hk
  simp only [decide_eq_true_eq] at hk
  unfold get_zone_index at hk ⊢
  cases h : find_index (fun z => decide (z.name = zone_name)) t.zones with
  | none => rw [h] at hk; simp at hk
  | some i =>
    have e : ({ t with zones := t.zones ++ zs } : State).zones = t.zones ++ zs := rfl
    rw [e, find_index_append_some zs h]

theorem is_zone_known_append (zone_name : String) (t : State) (zs : List Zone)
    (hk : is_zone_known zone_name t = true) :
    is_zone_known zone_name { t with zones := t.zones ++ zs } = true := by
  unfold is_zone_known
  rw [get_zone_index_append_of_known zone_name t zs hk]
  unfold is_zone_known at hk
  exact hk

theorem apply_iter_preserve (zone_name : String) (t : State) (op : IterOp)
    (hk : is_zone_known zone_name t = true) (hne : t.zones ≠ []) :
    is_zone_known zone_name (apply_iter t op) = true ∧
    (apply_iter t op).zones ≠ [] ∧
    get_zone_index zone_name (apply_iter t op) = get_zone_index zone_name t ∧
    (apply_iter t op).target_zone = t.target_zone ∧
    ((apply_iter t op).status = Status.Measuring ↔ t.status = Status.Measuring) := by
  cases op with
  | iter_start =>
    simp only [apply_iter, start]
    split_ifs with h
    · refine ⟨hk, hne, rfl, rfl, ?_⟩
      rw [h]
      simp
    · exact ⟨hk, hne, rfl, rfl, Iff.rfl⟩
  | iter_zone m =>
    simp only [apply_iter]
    rw [zone_snd]
    by_cases hkm : is_zone_known m t
    · rw [zone_reg_of_known m t hkm hne]
      exact ⟨hk, hne, rfl, rfl, Iff.rfl⟩
    · rw [zone_reg_of_new m t (by simpa using hkm) hne]
      exact ⟨is_zone_known_append zone_name t _ hk, by simp,
        get_zone_index_append_of_known zone_name t _ hk, rfl, Iff.rfl⟩

theorem apply_iters_preserve (zone_name : String) (ops : List IterOp) (t : State)
    (hk : is_zone_known zone_name t = true) (hne : t.zones ≠ []) :
    is_zone_known zone_name (apply_iters t ops) = true ∧
    (apply_iters t ops).zones ≠ [] ∧
    get_zone_index zone_name (apply_iters t ops) = get_zone_index zone_name t ∧
    (apply_iters t ops).target_zone = t.target_zone ∧
    ((apply_iters t ops).status = Status.Measuring ↔ t.status = Status.Measuring) := by
  induction ops generalizing t with
  | nil => exact ⟨hk, hne, rfl, rfl, Iff.rfl⟩
  | cons op ops ih =>
    obtain ⟨h1, h2, h3, h4, h5⟩ := apply_iter_preserve zone_name t op hk hne
    obtain ⟨g1, g2, g3, g4, g5⟩ := ih (apply_iter t op) h1 h2
    exact ⟨g1, g2, g3.trans h3, g4.trans h4, g5.trans h5⟩

/-- C10: within one loop iteration (no slice in between, any interleaving
of further zone registrations and begin requests), a second call of the
zone predicate with the same name returns the same boolean as the first,
in every phase, including when the first call freshly registers the name. -/
theorem C10_toggle_consistent (s : State) (zone_name : String) (ops : List IterOp) :
    (zone zone_name (apply_iters (zone zone_name s).2 ops)).1 = (zone zone_name s).1 := by
  rw [zone_fst zone_name s, zone_snd zone_name s]
  have hk := zone_reg_known zone_name s
  have hne := zone_reg_ne_nil zone_name s
  obtain ⟨h1, h2, h3, h4, h5⟩ := apply_iters_preserve zone_name ops (zone_reg zone_name s) hk hne
  rw [zone_fst zone_name (apply_iters (zone_reg zone_name s) ops)]
  rw [zone_reg_of_known zone_name _ h1 h2]
  exact zone_visible_congr zone_name _ _ h5 h4 h3

theorem resize_eq_pad_left (i : ℤ) (d : ℕ) (hd : 1 ≤ d)
    (h : i = 0 ∨ (intToString i).data.length = d) :
    strResize (intToString i) d (Char.ofNat 48) = pad_left_zeros (intToString i) d := by
  rcases h with h0 | hlen
  · subst h0
    have hzero : intToString 0 = "0" := by decide
    rw [hzero]
    have hdata : ("0" : String).data = [Char.ofNat 48] := by decide
    unfold strResize pad_left_zeros
    rw [hdata]
    cases d with
    | zero => omega
    | succ e =>
      apply congrArg
      simp only [List.take_succ_cons, List.take_nil, List.length_singleton,
        Nat.add_sub_cancel, List.cons_append, List.nil_append]
      rw [← List.replicate_succ, List.replicate_succ']
  · unfold strResize pad_left_zeros
    rw [hlen, ← hlen, List.take_length]
    simp

/-- C6 (amended): get_num_str prints the sign when requested, all integer
digits of the rounded value when rounding to the nearest integer uses up
the significant-digit budget, and otherwise the integer part verbatim plus
a fractional suffix of the remaining digit budget rounded at that
precision, provided the rounded fractional numerator is zero or fills the
remaining budget exactly; when the numerator has fewer digits the code
right-pads it with zeros (0.05 at 2 significant digits prints "0.50"), and
when rounding carries over it truncates.  The three cited vectors hold. -/
theorem C6_amended_format :
    (∀ (num : ℚ) (significant_digits : ℤ) (with_sign : Bool),
      (cround ((|num| - (qtrunc |num| : ℚ)) *
          (10 : ℚ) ^ (significant_digits - auto_get_digits_before_point |num|).toNat) = 0 ∨
        (intToString (cround ((|num| - (qtrunc |num| : ℚ)) *
          (10 : ℚ) ^ (significant_digits - auto_get_digits_before_point |num|).toNat))).data.length
          = (significant_digits - auto_get_digits_before_point |num|).toNat) →
      get_num_str num significant_digits with_sign = spec_num_str num significant_digits with_sign) ∧
    get_num_str (199/2) 2 true = "+100" ∧
    get_num_str (991/10) 3 true = "+99.1" ∧
    get_num_str (111/1000) 3 false = "0.111" := by
  refine ⟨?_, by decide, by decide, by decide⟩
  intro num sig ws h
  have hsuffix : 0 < sig - auto_get_digits_before_point |num| →
      get_fractional_string |num| (sig - auto_get_digits_before_point |num|).toNat =
        spec_fractional_string |num| (sig - auto_get_digits_before_point |num|).toNat := by
    intro hdl
    unfold get_fractional_string spec_fractional_string
    exact resize_eq_pad_left _ _ (by omega) h
  simp only [get_num_str, spec_num_str]
  by_cases hbr : sig ≤ auto_get_digits_before_point ((cround |num| : ℤ) : ℚ)
  · rw [if_pos hbr, if_pos hbr]
  · rw [if_neg hbr, if_neg hbr]
    by_cases hdl : 0 < sig - auto_get_digits_before_point |num|
    · rw [if_pos hdl, if_pos hdl, hsuffix hdl]
    · rw [if_neg hdl, if_neg hdl]

theorem C6_amended_format_witness :
    get_num_str (991/10) 3 true = spec_num_str (991/10) 3 true ∧
    get_num_str (991/10) 3 true = "+99.1" :=
  ⟨C6_amended_format.1 (991/10) 3 true (by decide), by decide⟩

theorem range_map_getD {α : Type} (n : ℕ) (f : ℕ → α) (i : ℕ) (d : α) (h : i < n) :
    ((List.range n).map f).getD i d = f i := by
  rw [List.getD_eq_getElem?_getD, List.getElem?_map, List.getElem?_range h]
  rfl

/-- C7: in the rendered table rows for median/mean/worst, cell 0 carries
only the absolute value, while every cell i > 0 carries the absolute value
followed by a parenthesised, explicitly signed percentage delta
100 * (value_i - value_0) / value_0 against row 0's value of the same
statistic. -/
theorem C7_cells_delta (lresults : Results) (eval_type : EvalType)
    (time_mode : ReportTimeMode) (i : ℕ)
    (hnot : eval_type ≠ EvalType.StdDev) (h0 : 0 < lresults.length)
    (hi : i < lresults.length) :
    ((get_table_row lresults eval_type time_mode).cells.getD 0 "" =
      get_num_str (get_result_eval (lresults.getD 0 default) eval_type time_mode) 3 false) ∧
    (0 < i →
      (get_table_row lresults eval_type time_mode).cells.getD i "" =
        get_num_str (get_result_eval (lresults.getD i default) eval_type time_mode) 3 false
          ++ " (" ++
          get_num_str
            (100 * (get_result_eval (lresults.getD i default) eval_type time_mode
                    - get_result_eval (lresults.getD 0 default) eval_type time_mode)
              / get_result_eval (lresults.getD 0 default) eval_type time_mode) 2 true
          ++ "%)") := by
  have hcells : (get_table_row lresults eval_type time_mode).cells
      = (List.range lresults.length).map (fun j =>
          get_cell_str (lresults.getD j default) (lresults.getD 0 default)
            (decide (j = 0)) eval_type time_mode) := rfl
  constructor
  · rw [hcells, range_map_getD _ _ _ _ h0]
    simp [get_cell_str, hnot]
  · intro hpos
    rw [hcells, range_map_getD _ _ _ _ hi]
    have hi0 : decide (i = 0) = false := by
      simp
      omega
    simp only [get_cell_str, if_neg hnot, hi0, Bool.false_eq_true, if_false, get_percentage]

theorem C7_cells_delta_witness :
    (get_table_row [c7r0, c7r1] EvalType.Median ReportTimeMode.Ms).cells.getD 1 "" =
      "3.00 (+50%)" := by
  have h := (C7_cells_delta [c7r0, c7r1] EvalType.Median ReportTimeMode.Ms 1
    (by decide) (by decide) (by decide)).2 (by decide)
  rw [h]
  decide

end dt
